import Mathlib

/-!
Verification of the form-validator engine (`src/validation.ts`).

The development shallowly embeds the runtime values, the schema model and the
recursive validation engine (`validateForm` / `validateValue` and its helper
functions) of the TypeScript source.  JavaScript numbers are modeled as
integers (every number appearing in the cited behaviors is integral; `NaN`
and non-integral floats are outside the model), strings as Lean strings
(length counts characters, which agrees with the JS UTF-16 length on BMP
strings), and exotic property access (prototype members, `length`, string
indexing) is outside the model.  The asynchronous execution of custom
validators is strictly sequential in the source (each call is awaited before
the walk continues), so validators are modeled as pure functions from the
node value and the whole document to an outcome that either returns
a message-or-null or throws.
-/

set_option maxRecDepth 8000

namespace FormValidator

/-- JS-like runtime values: `undefined`, `null`, booleans, numbers
(modeled as integers), strings, arrays and plain objects
(association lists, preserving key insertion order). -/
inductive Value where
  | undefined
  | null
  | bool (b : Bool)
  | num (n : Int)
  | str (s : String)
  | arr (elems : List Value)
  | obj (fields : List (String × Value))

/-- Error entries collected by the engine: pairs of path and message. -/
abbrev Errs := List (String × String)

/-- A thrown JS value as observed by the engine's catch block:
`some m` for an `Error` whose `message` is `m`, `none` for any other
thrown value. -/
abbrev JsExn := Option String

/-- Truthiness of `value === undefined || value === null`. -/
def Value.isAbsent : Value → Bool
  | .undefined => true
  | .null => true
  | _ => false

/-- Truthiness of `value === undefined`. -/
def Value.isUndefined : Value → Bool
  | .undefined => true
  | _ => false

/-- First-match association lookup on object fields, i.e. property access
`v[key]` on a plain object (JS object keys are unique, so first match is
the only match). -/
def assocV : List (String × Value) → String → Option Value
  | [], _ => none
  | (k, x) :: rest, key => if k = key then some x else assocV rest key

/-- A string that is a canonical array index ("0", "17", ...). -/
def natKey (k : String) : Option Nat :=
  match k.toNat? with
  | some i => if toString i = k then some i else none
  | none => none

/-- Property access `dv?.[p]`: `undefined`/`null` (and all primitives)
yield `undefined`; objects look up own fields; arrays are indexed by
canonical numeric keys. -/
def getProp (v : Value) (key : String) : Value :=
  match v with
  | .obj fs => (assocV fs key).getD .undefined
  | .arr xs =>
    match natKey key with
    | some i => xs.getD i .undefined
    | none => .undefined
  | _ => .undefined

/-- The discriminator-resolution loop `for (const p of parts) dv = dv?.[p]`
starting from the root document. -/
def resolveDots (root : Value) (parts : List String) : Value :=
  parts.foldl getProp root

mutual

/-- String coercion of a JS value as performed by a template literal,
for example in the message of an invalid discriminator. -/
def jsToString : Value → String
  | .undefined => "undefined"
  | .null => "null"
  | .bool b => cond b "true" "false"
  | .num n => toString n
  | .str s => s
  | .arr xs => jsToStringElems xs
  | .obj _ => "[object Object]"

/-- Elements of an array joined by commas, with `null`/`undefined`
elements contributing the empty string (JS `Array.prototype.toString`). -/
def jsToStringElems : List Value → String
  | [] => ""
  | [.undefined] => ""
  | [.null] => ""
  | [x] => jsToString x
  | .undefined :: xs => "," ++ jsToStringElems xs
  | .null :: xs => "," ++ jsToStringElems xs
  | x :: xs => jsToString x ++ "," ++ jsToStringElems xs

end

mutual

/-- Structural boolean equality on values (arrays and objects compared
componentwise, object fields in order). -/
def beqValue : Value → Value → Bool
  | .undefined, .undefined => true
  | .null, .null => true
  | .bool a, .bool b => a == b
  | .num a, .num b => a == b
  | .str a, .str b => a == b
  | .arr xs, .arr ys => beqValueList xs ys
  | .obj fs, .obj gs => beqValueFields fs gs
  | _, _ => false

/-- Componentwise equality of value lists. -/
def beqValueList : List Value → List Value → Bool
  | [], [] => true
  | x :: xs, y :: ys => beqValue x y && beqValueList xs ys
  | _, _ => false

/-- Componentwise equality of field lists (keys and values, in order). -/
def beqValueFields : List (String × Value) → List (String × Value) → Bool
  | [], [] => true
  | (k, x) :: fs, (l, y) :: gs => k == l && beqValue x y && beqValueFields fs gs
  | _, _ => false

end

/-- One hexadecimal digit. -/
def hexDigit (n : Nat) : String :=
  String.singleton (if n < 10 then Char.ofNat (48 + n) else Char.ofNat (87 + n))

/-- JSON escaping of a single character. -/
def jsonEscapeChar (c : Char) : String :=
  if c = '"' then "\\\""
  else if c = '\\' then "\\\\"
  else if c = '\n' then "\\n"
  else if c = '\t' then "\\t"
  else if c = '\r' then "\\r"
  else if c = '\x08' then "\\b"
  else if c = '\x0c' then "\\f"
  else if c.toNat < 32 then
    "\\u00" ++ hexDigit (c.toNat / 16) ++ hexDigit (c.toNat % 16)
  else String.singleton c

/-- A JSON string literal: quotes around the escaped characters. -/
def jsonQuote (s : String) : String :=
  "\"" ++ s.data.foldl (fun acc c => acc ++ jsonEscapeChar c) "" ++ "\""

/-- Comma-separated join, as used between JSON array elements and
object entries. -/
def commaJoin : List String → String
  | [] => ""
  | [x] => x
  | x :: xs => x ++ "," ++ commaJoin xs

mutual

/-- The canonical serialization `JSON.stringify(v)` used by the
`uniqueItems` check.  At top level `undefined` serializes to no string at
all (JS returns the value `undefined`), hence the `Option`.  Inside arrays
`undefined` becomes `null`; object entries whose value is `undefined` are
omitted.  Object fields are kept in insertion order, exactly as JS does. -/
def jstr : Value → Option String
  | .undefined => none
  | .null => some "null"
  | .bool b => some (cond b "true" "false")
  | .num n => some (toString n)
  | .str s => some (jsonQuote s)
  | .arr xs => some ("[" ++ commaJoin (jstrElems xs) ++ "]")
  | .obj fs => some ("\x7b" ++ commaJoin (jstrFields fs) ++ "\x7d")

/-- Serialized array elements (`undefined` → `"null"`). -/
def jstrElems : List Value → List String
  | [] => []
  | x :: xs => (jstr x).getD "null" :: jstrElems xs

/-- Serialized object entries, skipping entries whose value serializes
to nothing. -/
def jstrFields : List (String × Value) → List String
  | [] => []
  | (k, x) :: fs =>
    match jstr x with
    | some sx => (jsonQuote k ++ ":" ++ sx) :: jstrFields fs
    | none => jstrFields fs

end

/-- Lexicographic comparison of character lists (by code point). -/
def charListLe : List Char → List Char → Bool
  | [], _ => true
  | _ :: _, [] => false
  | a :: as, b :: bs =>
    if a.toNat < b.toNat then true
    else if a.toNat = b.toNat then charListLe as bs
    else false

/-- Lexicographic comparison of keys. -/
def keyLe (a b : String) : Bool :=
  charListLe a.data b.data

/-- Insert a field into a key-sorted field list. -/
def insertField (p : String × Value) : List (String × Value) → List (String × Value)
  | [] => [p]
  | q :: qs => if keyLe p.1 q.1 then p :: q :: qs else q :: insertField p qs

/-- Sort object fields by key (insertion sort). -/
def sortFields : List (String × Value) → List (String × Value)
  | [] => []
  | p :: ps => insertField p (sortFields ps)

mutual

/-- Canonical form of a value: object fields sorted by key, recursively. -/
def canonValue : Value → Value
  | .undefined => .undefined
  | .null => .null
  | .bool b => .bool b
  | .num n => .num n
  | .str s => .str s
  | .arr xs => .arr (canonList xs)
  | .obj fs => .obj (sortFields (canonFields fs))

/-- Canonical forms of a list of values. -/
def canonList : List Value → List Value
  | [] => []
  | x :: xs => canonValue x :: canonList xs

/-- Canonical forms of the values of a field list. -/
def canonFields : List (String × Value) → List (String × Value)
  | [] => []
  | (k, x) :: fs => (k, canonValue x) :: canonFields fs

end

/-- Modelled from the spec: deep structural equality of values "by
structural value, not by identity — including deep-equal objects
regardless of the order their keys were inserted".  This is the notion of
duplicate the specification ascribes to the `uniqueItems` check; the code
itself compares `JSON.stringify` serializations (`jstr`), which is
key-order-sensitive. -/
def specDeepEqual (v w : Value) : Bool :=
  beqValue (canonValue v) (canonValue w)

/-- The character class `\s` of JS regular expressions (the whitespace
characters relevant to this development; the remaining Unicode space
characters are treated alike). -/
def jsSpaceChar (c : Char) : Bool :=
  c = ' ' || c = '\t' || c = '\n' || c = '\r' || c = '\x0b' || c = '\x0c' ||
  c.toNat = 0xa0 || c.toNat = 0xfeff

/-- The character class `[^\s@]` of the email regex. -/
def emailCharOk (c : Char) : Bool :=
  !(jsSpaceChar c) && !(c = '@')

/-- A match of `[^\s@]+@[^\s@]+\.[^\s@]+` whose `@` sits at index `j` and
whose final literal `.` sits at index `k`: one local character before the
`@`, at least one `[^\s@]` character strictly between `j` and `k`, and one
tail character after the `.`.  A match of the regex exists somewhere in
`cs` exactly when such a pair of indices exists (single characters suffice
to witness each `+`). -/
def emailMatchAt (cs : List Char) (j k : Nat) : Bool :=
  decide (1 ≤ j) && decide (j + 2 ≤ k) && decide (k + 2 ≤ cs.length) &&
  emailCharOk (cs.getD (j - 1) ' ') && decide (cs.getD j ' ' = '@') &&
  decide (cs.getD k ' ' = '.') && emailCharOk (cs.getD (k + 1) ' ') &&
  ((List.range' (j + 1) (k - (j + 1))).all fun i => emailCharOk (cs.getD i ' '))

/-- Existence of a match of the email regex anywhere in the character
list (the regex is unanchored and `RegExp.test` searches the whole
string). -/
def emailTestList (cs : List Char) : Bool :=
  (List.range cs.length).any fun j =>
    (List.range cs.length).any fun k => emailMatchAt cs j k

/-- The source's email check `/[^\s@]+@[^\s@]+\.[^\s@]+/.test(v)`. -/
def jsEmailTest (s : String) : Bool :=
  emailTestList s.data

/-- Componentwise prefix test on character lists. -/
def isPrefixB : List Char → List Char → Bool
  | [], _ => true
  | _ :: _, [] => false
  | a :: as, b :: bs => a = b && isPrefixB as bs

/-- Infix (substring) test on character lists, used for `v.includes(t)`. -/
def isInfixB (needle : List Char) : List Char → Bool
  | [] => isPrefixB needle []
  | c :: rest => isPrefixB needle (c :: rest) || isInfixB needle rest

/-- The JS `v.includes(t)` substring test. -/
def jsIncludes (v t : String) : Bool :=
  isInfixB t.data v.data

/-- A match of `https?:\/\/\S+` starting at the head of the list:
the literal prefix followed by at least one non-space character. -/
def urlAt (cs : List Char) : Bool :=
  (isPrefixB "http://".data cs &&
    match cs.drop 7 with
    | c :: _ => !jsSpaceChar c
    | [] => false) ||
  (isPrefixB "https://".data cs &&
    match cs.drop 8 with
    | c :: _ => !jsSpaceChar c
    | [] => false)

/-- Existence of a match of `p` at some suffix of the list. -/
def anySuffix (p : List Char → Bool) : List Char → Bool
  | [] => p []
  | c :: rest => p (c :: rest) || anySuffix p rest

/-- The source's URL check `/https?:\/\/\S+/.test(v)` (unanchored). -/
def jsUrlTest (s : String) : Bool :=
  anySuffix urlAt s.data

/-- The `format` field of a string schema (only `'date'` is consulted by
the engine). -/
inductive FieldFormat where
  | date
  | email
  | url
deriving DecidableEq

/-- The `errorMessage` modifier: either a literal string or a function.
The engine never applies a function-form `errorMessage`; the only
operation it performs on it is JS string conversion (`toString`), which
for a function yields its source text, carried here as `src` (always a
nonempty string in JS). -/
inductive ErrMsg where
  | str (s : String)
  | fn (src : String)

/-- Outcome of one invocation of a custom validator: it either returns
(a message, or `null`/`undefined` modeled as `none`) or throws. -/
inductive VOutcome where
  | ok (res : Option String)
  | exn (e : JsExn)

/-- The modifiers common to every schema node (`BaseFieldSchema`):
`required`, `nullable` (declared but never consulted by the engine),
`errorMessage` and the custom `validate` function. -/
structure Common where
  required : Bool := false
  nullable : Bool := false
  errorMessage : Option ErrMsg := none
  validate : Option (Value → Value → VOutcome) := none

/-- `StringValidationRules`.  `pattern` is a `RegExp`, modeled by its
`test` function. -/
structure StringRules where
  minLength : Option Nat := none
  maxLength : Option Nat := none
  pattern : Option (String → Bool) := none
  email : Bool := false
  url : Bool := false
  contains : Option String := none
  startsWith : Option String := none
  endsWith : Option String := none
  format : Option FieldFormat := none

/-- `NumberValidationRules`. -/
structure NumberRules where
  min : Option Int := none
  max : Option Int := none
  integer : Bool := false
  positive : Bool := false
  negative : Bool := false
  multipleOf : Option Int := none

/-- `ArrayValidationRules`. -/
structure ArrayRules where
  minItems : Option Nat := none
  maxItems : Option Nat := none
  uniqueItems : Bool := false

/-- `SchemaDefinition`: the closed union of schema node variants. -/
inductive Schema where
  | str (c : Common) (r : StringRules)
  | num (c : Common) (r : NumberRules)
  | boolean (c : Common)
  | arr (c : Common) (r : ArrayRules) (items : Schema)
  | obj (c : Common) (props : List (String × Schema))
  | dunion (c : Common) (discriminator : String) (schemas : List (String × Schema))
  | asyncV (c : Common) (dependsOn : String)

/-- The common modifiers of a node (`def.required`, `def.errorMessage`,
`def.validate`). -/
def Schema.common : Schema → Common
  | .str c _ => c
  | .num c _ => c
  | .boolean c => c
  | .arr c _ _ => c
  | .obj c _ => c
  | .dunion c _ _ => c
  | .asyncV c _ => c

/-- First-match association lookup on a schema map (`sch.schemas[dv]`,
`sch.properties[key]`). -/
def assocS : List (String × Schema) → String → Option Schema
  | [], _ => none
  | (k, s) :: rest, key => if k = key then some s else assocS rest key

/-- JS `toString` of an `errorMessage` value. -/
def errMsgToString : ErrMsg → String
  | .str s => s
  | .fn src => src

/-- The expression `sch.errorMessage?.toString() || dft` guarding every
built-in string-check message: the default applies only when
`errorMessage` is absent or stringifies to the empty string. -/
def msgOr (em : Option ErrMsg) (dft : String) : String :=
  match em with
  | none => dft
  | some m => if errMsgToString m = "" then dft else errMsgToString m

/-- The message of a required-gate error:
`typeof def.errorMessage === 'string' ? def.errorMessage : 'Field is required'`. -/
def requiredMessage (em : Option ErrMsg) : String :=
  match em with
  | some (.str s) => s
  | _ => "Field is required"

/-- The statement `if (cond) addError(path, msg)`. -/
def check (b : Bool) (path msg : String) : Errs :=
  if b then [(path, msg)] else []

/-- The statement `if (res) addError(path, res)` after a custom
validator returned `res`: only a nonempty string is truthy. -/
def truthy (path : String) (res : Option String) : Errs :=
  match res with
  | some m => if m = "" then [] else [(path, m)]
  | none => []

/-- The catch block's message:
`err instanceof Error ? err.message : 'Validation error'`. -/
def exnMessage : JsExn → String
  | some m => m
  | none => "Validation error"

/-- The source's `validateString`: a non-string yields only
"Must be a string"; otherwise all applicable checks run cumulatively.
`contains`/`startsWith`/`endsWith` are guarded by JS truthiness, so an
empty-string bound disables the check.  The `format: 'date'` check calls
the host `Date.parse`, abstracted as the parameter `dateParse` (`true`
meaning the string parses as a date). -/
def validateString (dateParse : String → Bool) (v : Value) (c : Common)
    (r : StringRules) (path : String) : Errs :=
  match v with
  | .str s =>
    (match r.minLength with
     | some n => check (decide (s.length < n)) path (msgOr c.errorMessage ("Min length " ++ toString n))
     | none => [])
    ++ (match r.maxLength with
     | some n => check (decide (n < s.length)) path (msgOr c.errorMessage ("Max length " ++ toString n))
     | none => [])
    ++ (match r.pattern with
     | some test => check (!(test s)) path (msgOr c.errorMessage "Invalid format")
     | none => [])
    ++ check (r.email && !(jsEmailTest s)) path (msgOr c.errorMessage "Invalid email")
    ++ check (r.url && !(jsUrlTest s)) path (msgOr c.errorMessage "Invalid URL")
    ++ (match r.contains with
     | some t => check (!(t == "") && !(jsIncludes s t)) path
         (msgOr c.errorMessage ("Must contain \"" ++ t ++ "\""))
     | none => [])
    ++ (match r.startsWith with
     | some t => check (!(t == "") && !(s.startsWith t)) path
         (msgOr c.errorMessage ("Must start with \"" ++ t ++ "\""))
     | none => [])
    ++ (match r.endsWith with
     | some t => check (!(t == "") && !(s.endsWith t)) path
         (msgOr c.errorMessage ("Must end with \"" ++ t ++ "\""))
     | none => [])
    ++ check ((r.format == some .date) && !(dateParse s)) path (msgOr c.errorMessage "Invalid date")
  | _ => [(path, "Must be a string")]

/-- The source's `validateNumber`.  In the integer model no value is
`NaN` and `Number.isInteger` always holds, so the "Must be a number"
branch fires exactly on non-numbers and the `integer` check never fires.
`%` is JS remainder (truncated, sign of the dividend), with a divisor of
zero making the check fire when the dividend is nonzero (JS `v % 0` is
`NaN`, never `0`); `0 % 0` is modeled as `0`. -/
def validateNumber (v : Value) (_c : Common) (r : NumberRules) (path : String) : Errs :=
  match v with
  | .num n =>
    (match r.min with
     | some m => check (decide (n < m)) path ("Min " ++ toString m)
     | none => [])
    ++ (match r.max with
     | some m => check (decide (m < n)) path ("Max " ++ toString m)
     | none => [])
    ++ check (r.integer && false) path "Must be integer"
    ++ check (r.positive && decide (n ≤ 0)) path "Must be positive"
    ++ check (r.negative && decide (0 ≤ n)) path "Must be negative"
    ++ (match r.multipleOf with
     | some m => check (!(Int.tmod n m == 0)) path ("Must be multiple of " ++ toString m)
     | none => [])
  | _ => [(path, "Must be a number")]

/-- The boolean arm of the dispatch switch. -/
def validateBooleanErrs (v : Value) (path : String) : Errs :=
  match v with
  | .bool _ => []
  | _ => [(path, "Must be a boolean")]

/-- The checks `validateArray` performs before recursing into elements:
`minItems`, `maxItems`, and `uniqueItems` via the distinct count of the
`JSON.stringify` serializations (`new Set(v.map(i => JSON.stringify(i)))`). -/
def arrayPreErrs (r : ArrayRules) (elems : List Value) (path : String) : Errs :=
  (match r.minItems with
   | some n => check (decide (elems.length < n)) path ("Min items " ++ toString n)
   | none => [])
  ++ (match r.maxItems with
   | some n => check (decide (n < elems.length)) path ("Max items " ++ toString n)
   | none => [])
  ++ check (r.uniqueItems && !((elems.map jstr).dedup.length == elems.length)) path
       "Items must be unique"

/-- Character-level splitter: `splitChar sep cs` is JS
`String.prototype.split` with a single-character separator, on the
character list. -/
def splitChar (sep : Char) : List Char → List (List Char)
  | [] => [[]]
  | c :: rest =>
    match splitChar sep rest with
    | [] => [[]]
    | g :: gs => if c = sep then [] :: g :: gs else (c :: g) :: gs

/-- The expression `sch.discriminator.split('.')`. -/
def jsSplitDots (s : String) : List String :=
  (splitChar '.' s.data).map (fun l => String.mk l)

/-- The path of an array element, `path[i]`. -/
def itemPath (path : String) (i : Nat) : String :=
  path ++ "[" ++ toString i ++ "]"

/-- The path of an object property: `key` at the root, `path.key` below. -/
def joinPath (path key : String) : String :=
  if path = "" then key else path ++ "." ++ key

/-- The type of the recursive walker: value, node, path, whole document.
`none` models a run that needs more recursion depth than the fuel grants
(never reached from `validateForm`, see the fuel-sufficiency theorem);
`Except.error` models an exception escaping the walk; otherwise the pair
of collected synchronous and async error sequences is returned.
Returning each call's locally collected entries and concatenating at the
call sites is observationally the order-preserving append-only collector
of the source. -/
abbrev RecFn := Value → Schema → String → Value → Option (Except JsExn (Errs × Errs))

/-- The element loop of `validateArray`: recurse into every element in
index order; an exception aborts the loop and propagates. -/
def validateItemsG (recv : RecFn) (items : Schema) (path : String)
    (allValues : Value) : List Value → Nat → Option (Except JsExn (Errs × Errs))
  | [], _ => some (.ok ([], []))
  | x :: rest, i =>
    match recv x items (itemPath path i) allValues with
    | none => none
    | some (.error e) => some (.error e)
    | some (.ok p) =>
      match validateItemsG recv items path allValues rest (i + 1) with
      | none => none
      | some (.error e) => some (.error e)
      | some (.ok q) => some (.ok (p.1 ++ q.1, p.2 ++ q.2))

/-- The source's `validateArray`, parameterized by the recursive walker:
a non-array yields only "Must be an array" and no recursion; otherwise
the pre-checks run and every element is visited. -/
def validateArrayG (recv : RecFn) (v : Value) (r : ArrayRules) (items : Schema)
    (path : String) (allValues : Value) : Option (Except JsExn (Errs × Errs)) :=
  match v with
  | .arr elems =>
    (match validateItemsG recv items path allValues elems 0 with
     | none => none
     | some (.error e) => some (.error e)
     | some (.ok p) => some (.ok (arrayPreErrs r elems path ++ p.1, p.2)))
  | _ => some (.ok ([(path, "Must be an array")], []))

/-- The property loop of `validateObject`: iterate the schema's declared
properties in declaration order, recursing with `v[key]` (missing keys
yield `undefined`). -/
def validatePropsG (recv : RecFn) (fields : List (String × Value)) (path : String)
    (allValues : Value) : List (String × Schema) → Option (Except JsExn (Errs × Errs))
  | [] => some (.ok ([], []))
  | (key, s) :: rest =>
    match recv ((assocV fields key).getD .undefined) s (joinPath path key) allValues with
    | none => none
    | some (.error e) => some (.error e)
    | some (.ok p) =>
      match validatePropsG recv fields path allValues rest with
      | none => none
      | some (.error e) => some (.error e)
      | some (.ok q) => some (.ok (p.1 ++ q.1, p.2 ++ q.2))

/-- The source's `validateObject`, parameterized by the recursive walker:
anything that is not a plain object (`typeof v !== 'object'`, `null`,
arrays) yields only "Must be an object" and no recursion. -/
def validateObjectG (recv : RecFn) (v : Value) (props : List (String × Schema))
    (path : String) (allValues : Value) : Option (Except JsExn (Errs × Errs)) :=
  match v with
  | .obj fields => validatePropsG recv fields path allValues props
  | _ => some (.ok ([(path, "Must be an object")], []))

/-- The source's `validateDiscriminatedUnion`, parameterized by the
recursive walker: the discriminator dot-path is resolved by walking the
whole document `allValues`; an unmatched discriminator value yields
exactly the quoted error at the union's own path and the branch is not
visited; a matched branch is validated at the same path. -/
def validateDUG (recv : RecFn) (v : Value) (disc : String)
    (schemas : List (String × Schema)) (path : String) (allValues : Value) :
    Option (Except JsExn (Errs × Errs)) :=
  let dv := resolveDots allValues (jsSplitDots disc)
  match assocS schemas (jsToString dv) with
  | none => some (.ok ([(path, "Invalid discriminator \"" ++ jsToString dv ++ "\"")], []))
  | some sub => recv v sub path allValues

/-- The source's `validateAsync`: the validator (when present) is invoked
with no surrounding try/catch — a returned truthy message goes to the
async error sequence, a throw escapes. -/
def validateAsyncG (v : Value) (c : Common) (path : String) (allValues : Value) :
    Except JsExn (Errs × Errs) :=
  match c.validate with
  | none => .ok ([], [])
  | some f =>
    match f v allValues with
    | .ok res => .ok ([], truthy path res)
    | .exn em => .error em

/-- The dispatch switch of `validateValue`, parameterized by the
recursive walker used for container children and union branches. -/
def dispatchG (dateParse : String → Bool) (recv : RecFn) (v : Value) (sch : Schema)
    (path : String) (allValues : Value) : Option (Except JsExn (Errs × Errs)) :=
  match sch with
  | .str c r => some (.ok (validateString dateParse v c r path, []))
  | .num c r => some (.ok (validateNumber v c r path, []))
  | .boolean _ => some (.ok (validateBooleanErrs v path, []))
  | .arr _ r items => validateArrayG recv v r items path allValues
  | .obj _ props => validateObjectG recv v props path allValues
  | .dunion _ disc schemas => validateDUG recv v disc schemas path allValues
  | .asyncV c _ => some (validateAsyncG v c path allValues)

/-- The custom-validator step at the end of `validateValue`, wrapped in
try/catch: a truthy result and a caught exception both append a
synchronous error at the node's path. -/
def applyCustom (valf : Option (Value → Value → VOutcome)) (v allValues : Value)
    (path : String) (p : Errs × Errs) : Errs × Errs :=
  match valf with
  | none => p
  | some f =>
    match f v allValues with
    | .ok res => (p.1 ++ truthy path res, p.2)
    | .exn em => (p.1 ++ [(path, exnMessage em)], p.2)

/-- The source's recursive `validateValue`, with explicit fuel (recursion
depth budget).  Gate order is the source's: the required gate first, the
absent-and-optional early return second, then the type dispatch, then the
custom validator.  Every recursive call into children consumes one unit
of fuel. -/
def validateValueF (dateParse : String → Bool) : Nat → RecFn
  | 0 => fun _ _ _ _ => none
  | fuel + 1 => fun v sch path allValues =>
    let c := sch.common
    if c.required && v.isAbsent then
      some (.ok ([(path, requiredMessage c.errorMessage)], []))
    else if v.isUndefined && !c.required then
      some (.ok ([], []))
    else
      match dispatchG dateParse (validateValueF dateParse fuel) v sch path allValues with
      | none => none
      | some (.error e) => some (.error e)
      | some (.ok p) => some (.ok (applyCustom c.validate v allValues path p))

mutual

/-- Nesting depth of a schema tree. -/
def schemaHeight : Schema → Nat
  | .str _ _ => 1
  | .num _ _ => 1
  | .boolean _ => 1
  | .asyncV _ _ => 1
  | .arr _ _ items => 1 + schemaHeight items
  | .obj _ props => 1 + schemaHeightList props
  | .dunion _ _ schemas => 1 + schemaHeightList schemas

/-- Largest nesting depth among a schema map's entries. -/
def schemaHeightList : List (String × Schema) → Nat
  | [] => 0
  | (_, s) :: rest => max (schemaHeight s) (schemaHeightList rest)

end

/-- The implicit root node `{ type: 'object', properties: schema }` in
which `validateForm` wraps the top-level schema map. -/
def rootSchema (schema : List (String × Schema)) : Schema :=
  .obj {} schema

/-- The `ValidationResult` record: `valid` is true iff both sequences are
empty, and `asyncErrors` is present (`some`) only when nonempty. -/
structure ValidationResult where
  valid : Bool
  errors : Errs
  asyncErrors : Option Errs
deriving DecidableEq

/-- The source's `validateForm`: one call of the walker at the document
root with path `""` and `allValues` bound to the document itself.  The
fuel `schemaHeight (rootSchema schema) + 1` depends only on the schema
and is provably sufficient for every document (see the fuel-sufficiency
theorem), so the `none` fallback is unreachable.  A rejected promise is
the `Except.error` case. -/
def validateForm (dateParse : String → Bool) (data : Value)
    (schema : List (String × Schema)) : Except JsExn ValidationResult :=
  match validateValueF dateParse (schemaHeight (rootSchema schema) + 1) data
      (rootSchema schema) "" data with
  | some (.ok p) =>
    .ok { valid := (p.1.length == 0) && (p.2.length == 0), errors := p.1,
          asyncErrors := if decide (0 < p.2.length) then some p.2 else none }
  | some (.error e) => .error e
  | none => .ok { valid := true, errors := [], asyncErrors := none }

/-! Theorems. -/

/-- C1: If a node is required and the value is `undefined` or `null`,
`validateValue` records exactly one error at the node's path — the
node's `errorMessage` when that is a literal string, the default
"Field is required" otherwise — and nothing else happens for that node's
subtree (no type checks, no children, no custom validator).  If the value
is `undefined` and `required` is falsy, no error is recorded and no
recursion happens at all. -/
theorem C1_required_gate (dp : String → Bool) (fuel : Nat) (v : Value)
    (sch : Schema) (path : String) (av : Value) :
    (sch.common.required = true → v.isAbsent = true →
      validateValueF dp (fuel + 1) v sch path av =
        some (.ok ([(path, requiredMessage sch.common.errorMessage)], []))) ∧
    (sch.common.required = false → v = .undefined →
      validateValueF dp (fuel + 1) v sch path av = some (.ok ([], []))) := by
  constructor
  · intro hreq habs
    simp [validateValueF, hreq, habs]
  · intro hreq hv
    subst hv
    simp [validateValueF, hreq, Value.isAbsent, Value.isUndefined]

/-- Claim C1, witnessed at concrete inputs: a required string node with
no `errorMessage` on `null`, and an optional string node on
`undefined`. -/
theorem C1_required_gate_witness :
    validateValueF (fun _ => true) 1 .null (.str { required := true } {}) "p" .undefined =
      some (.ok ([("p", "Field is required")], [])) ∧
    validateValueF (fun _ => true) 1 .undefined (.str {} {}) "p" .undefined =
      some (.ok ([], [])) := by
  exact ⟨(C1_required_gate (fun _ => true) 0 .null (.str { required := true } {}) "p" .undefined).1 rfl rfl,
         (C1_required_gate (fun _ => true) 0 .undefined (.str {} {}) "p" .undefined).2 rfl rfl⟩

/-- C10: With `required` falsy, a `null` value is not skipped — only
`undefined` is treated as absent-and-opaque.  The engine proceeds to the
type dispatch (yielding "Must be a string" / "Must be a number" /
"Must be an object" for `null` at the respective node kinds) and then to
the custom validator, which does run on `null`. -/
theorem C10_null_dispatch (dp : String → Bool) (fuel : Nat) (path : String)
    (av : Value) :
    (∀ c r, c.required = false → c.validate = none →
      validateValueF dp (fuel + 1) .null (.str c r) path av =
        some (.ok ([(path, "Must be a string")], []))) ∧
    (∀ c r, c.required = false → c.validate = none →
      validateValueF dp (fuel + 1) .null (.num c r) path av =
        some (.ok ([(path, "Must be a number")], []))) ∧
    (∀ c props, c.required = false → c.validate = none →
      validateValueF dp (fuel + 1) .null (.obj c props) path av =
        some (.ok ([(path, "Must be an object")], []))) ∧
    (∀ c r f m, c.required = false → c.validate = some f →
      f .null av = .ok (some m) → m ≠ "" →
      validateValueF dp (fuel + 1) .null (.str c r) path av =
        some (.ok ([(path, "Must be a string"), (path, m)], []))) ∧
    (∀ sch, sch.common.required = false →
      validateValueF dp (fuel + 1) .undefined sch path av = some (.ok ([], []))) := by
  refine ⟨?_, ?_, ?_, ?_, ?_⟩
  · intro c r hreq hval
    simp [validateValueF, Schema.common, hreq, Value.isAbsent, Value.isUndefined,
      dispatchG, validateString, applyCustom, hval]
  · intro c r hreq hval
    simp [validateValueF, Schema.common, hreq, Value.isAbsent, Value.isUndefined,
      dispatchG, validateNumber, applyCustom, hval]
  · intro c props hreq hval
    simp [validateValueF, Schema.common, hreq, Value.isAbsent, Value.isUndefined,
      dispatchG, validateObjectG, applyCustom, hval]
  · intro c r f m hreq hval hf hm
    simp [validateValueF, Schema.common, hreq, Value.isAbsent, Value.isUndefined,
      dispatchG, validateString, applyCustom, hval, hf, truthy, hm]
  · intro sch hreq
    simp [validateValueF, hreq, Value.isAbsent, Value.isUndefined]

/-- Claim C10, witnessed at concrete inputs: `null` at optional string,
number and object nodes, `null` with a custom validator, and `undefined`
at an optional node. -/
theorem C10_null_dispatch_witness :
    validateValueF (fun _ => true) 1 .null (.str {} {}) "p" .undefined =
      some (.ok ([("p", "Must be a string")], [])) ∧
    validateValueF (fun _ => true) 1 .null (.num {} {}) "p" .undefined =
      some (.ok ([("p", "Must be a number")], [])) ∧
    validateValueF (fun _ => true) 1 .null (.obj {} []) "p" .undefined =
      some (.ok ([("p", "Must be an object")], [])) ∧
    validateValueF (fun _ => true) 1 .null
        (.str { validate := some (fun _ _ => .ok (some "ran")) } {}) "p" .undefined =
      some (.ok ([("p", "Must be a string"), ("p", "ran")], [])) ∧
    validateValueF (fun _ => true) 1 .undefined (.boolean {}) "p" .undefined =
      some (.ok ([], [])) := by
  refine ⟨?_, ?_, ?_, ?_, ?_⟩
  · exact (C10_null_dispatch (fun _ => true) 0 "p" .undefined).1 {} {} rfl rfl
  · exact (C10_null_dispatch (fun _ => true) 0 "p" .undefined).2.1 {} {} rfl rfl
  · exact (C10_null_dispatch (fun _ => true) 0 "p" .undefined).2.2.1 {} [] rfl rfl
  · exact (C10_null_dispatch (fun _ => true) 0 "p" .undefined).2.2.2.1 _ {}
      (fun _ _ => .ok (some "ran")) "ran" rfl rfl rfl (by decide)
  · exact (C10_null_dispatch (fun _ => true) 0 "p" .undefined).2.2.2.2 (.boolean {}) rfl

/-- C3: A `DiscriminatedUnion` node resolves its dot-path discriminator
by walking segments of the document threaded as `allValues` (the original
root document, which `validateForm` passes unchanged to every recursive
call), never the currently-visited value `v`.  An unmatched discriminator
yields exactly one error at the union's own path with message
`Invalid discriminator "<resolved>"` and the branch subtree contributes
nothing; a matched branch is validated at the union's own path; an
unresolved discriminator stringifies to the literal text `undefined`. -/
theorem C3_discriminator_resolution (dp : String → Bool) (fuel : Nat) (v : Value)
    (c : Common) (disc : String) (schemas : List (String × Schema)) (path : String)
    (av : Value) (hg1 : (c.required && v.isAbsent) = false)
    (hg2 : (v.isUndefined && !c.required) = false) (hval : c.validate = none) :
    (assocS schemas (jsToString (resolveDots av (jsSplitDots disc))) = none →
      validateValueF dp (fuel + 1) v (.dunion c disc schemas) path av =
        some (.ok ([(path, "Invalid discriminator \"" ++
          jsToString (resolveDots av (jsSplitDots disc)) ++ "\"")], []))) ∧
    (∀ sub, assocS schemas (jsToString (resolveDots av (jsSplitDots disc))) = some sub →
      validateValueF dp (fuel + 1) v (.dunion c disc schemas) path av =
        validateValueF dp fuel v sub path av) ∧
    jsToString Value.undefined = "undefined" := by
  refine ⟨?_, ?_, rfl⟩
  · intro hlook
    simp [validateValueF, Schema.common, hg1, hg2, dispatchG, validateDUG, hlook,
      applyCustom, hval]
  · intro sub hlook
    cases hres : validateValueF dp fuel v sub path av with
    | none =>
      simp [validateValueF, Schema.common, hg1, hg2, dispatchG, validateDUG, hlook, hres]
    | some r =>
      cases r with
      | error e =>
        simp [validateValueF, Schema.common, hg1, hg2, dispatchG, validateDUG, hlook, hres]
      | ok p =>
        simp [validateValueF, Schema.common, hg1, hg2, dispatchG, validateDUG, hlook, hres,
          applyCustom, hval]

/-- Claim C3, witnessed at concrete inputs: the discriminator `"k"` is
resolved against the root document (where `k` is `"x"`), not against the
visited value `.num 5`; one union has no branch `"x"` (single
discriminator error), the other has one (validated at the same path). -/
theorem C3_discriminator_resolution_witness :
    validateValueF (fun _ => true) 2 (.num 5) (.dunion {} "k" [("y", .boolean {})])
        "p" (.obj [("k", .str "x")]) =
      some (.ok ([("p", "Invalid discriminator \"x\"")], [])) ∧
    validateValueF (fun _ => true) 2 (.num 5) (.dunion {} "k" [("x", .boolean {})])
        "p" (.obj [("k", .str "x")]) =
      validateValueF (fun _ => true) 1 (.num 5) (.boolean {}) "p"
        (.obj [("k", .str "x")]) := by
  exact ⟨(C3_discriminator_resolution (fun _ => true) 1 (.num 5) {} "k"
            [("y", .boolean {})] "p" (.obj [("k", .str "x")]) rfl rfl rfl).1 rfl,
         (C3_discriminator_resolution (fun _ => true) 1 (.num 5) {} "k"
            [("x", .boolean {})] "p" (.obj [("k", .str "x")]) rfl rfl rfl).2.1
            (.boolean {}) rfl⟩

/-- C2 counterexample: at an Array node carrying a custom `validate`
function, a wrong-container-kind value produces TWO errors at the node's
path — the "Must be an array" structural error and the custom validator's
message — because the custom-validator step still runs after the dispatch
returned.  This refutes the claim that in the stop-descent cases the node
contributes exactly one error even when it carries a custom validate
function. -/
theorem C2_stop_descent_counterexample :
    validateValueF (fun _ => true) 1 (.str "x")
        (.arr { validate := some (fun _ _ => .ok (some "custom")) } {} (.boolean {}))
        "p" .null =
      some (.ok ([("p", "Must be an array"), ("p", "custom")], [])) ∧
    ¬ ([("p", "Must be an array"), ("p", "custom")] : Errs).length = 1 := by
  exact ⟨rfl, by decide⟩

/-- C2 (amended): in all three stop-descent cases no child of the node is
visited.  The required-and-absent case contributes exactly one error and
skips the node's custom validator entirely; the wrong-container-kind
cases (Array/Object) and the unmatched-discriminator case contribute
exactly one error from the check itself, but a custom `validate` function
on the node still runs afterwards and may add further errors at the
node's own path (so "exactly one error" for those two cases holds when
the node carries no custom validator). -/
theorem C2_stop_descent_amended (dp : String → Bool) (fuel : Nat) (v : Value)
    (path : String) (av : Value) :
    (∀ (sch : Schema), sch.common.required = true → v.isAbsent = true →
      validateValueF dp (fuel + 1) v sch path av =
        some (.ok ([(path, requiredMessage sch.common.errorMessage)], []))) ∧
    (∀ c r items, c.validate = none → (c.required && v.isAbsent) = false →
      (v.isUndefined && !c.required) = false → (∀ xs, v ≠ .arr xs) →
      validateValueF dp (fuel + 1) v (.arr c r items) path av =
        some (.ok ([(path, "Must be an array")], []))) ∧
    (∀ c props, c.validate = none → (c.required && v.isAbsent) = false →
      (v.isUndefined && !c.required) = false → (∀ fs, v ≠ .obj fs) →
      validateValueF dp (fuel + 1) v (.obj c props) path av =
        some (.ok ([(path, "Must be an object")], []))) ∧
    (∀ c disc schemas, c.validate = none → (c.required && v.isAbsent) = false →
      (v.isUndefined && !c.required) = false →
      assocS schemas (jsToString (resolveDots av (jsSplitDots disc))) = none →
      validateValueF dp (fuel + 1) v (.dunion c disc schemas) path av =
        some (.ok ([(path, "Invalid discriminator \"" ++
          jsToString (resolveDots av (jsSplitDots disc)) ++ "\"")], []))) := by
  refine ⟨?_, ?_, ?_, ?_⟩
  · intro sch hreq habs
    simp [validateValueF, hreq, habs]
  · intro c r items hval hg1 hg2 hv
    cases v with
    | arr xs => exact absurd rfl (hv xs)
    | undefined => simp [Value.isUndefined, Value.isAbsent] at hg1 hg2; simp [hg1] at hg2
    | null =>
      simp [Value.isAbsent, Bool.and_eq_false_iff] at hg1
      simp [validateValueF, Schema.common, hg1, Value.isAbsent, Value.isUndefined,
        dispatchG, validateArrayG, applyCustom, hval]
    | _ =>
      simp [validateValueF, Schema.common, Value.isAbsent, Value.isUndefined,
        dispatchG, validateArrayG, applyCustom, hval]
  · intro c props hval hg1 hg2 hv
    cases v with
    | obj fs => exact absurd rfl (hv fs)
    | undefined => simp [Value.isUndefined, Value.isAbsent] at hg1 hg2; simp [hg1] at hg2
    | null =>
      simp [Value.isAbsent, Bool.and_eq_false_iff] at hg1
      simp [validateValueF, Schema.common, hg1, Value.isAbsent, Value.isUndefined,
        dispatchG, validateObjectG, applyCustom, hval]
    | _ =>
      simp [validateValueF, Schema.common, Value.isAbsent, Value.isUndefined,
        dispatchG, validateObjectG, applyCustom, hval]
  · intro c disc schemas hval hg1 hg2 hlook
    simp [validateValueF, Schema.common, hg1, hg2, dispatchG, validateDUG, hlook,
      applyCustom, hval]

/-- Claim C2 (amended), witnessed at concrete inputs: a required node on
`undefined` with a custom validator attached (one error, validator
skipped), a string value at a validator-free Array node, a numeric value
at a validator-free Object node, and an unmatched discriminator. -/
theorem C2_stop_descent_amended_witness :
    validateValueF (fun _ => true) 1 .undefined
        (.arr { required := true, validate := some (fun _ _ => .ok (some "custom")) } {}
          (.boolean {})) "p" .null =
      some (.ok ([("p", "Field is required")], [])) ∧
    validateValueF (fun _ => true) 1 (.str "x") (.arr {} {} (.boolean {})) "p" .null =
      some (.ok ([("p", "Must be an array")], [])) ∧
    validateValueF (fun _ => true) 1 (.num 3) (.obj {} []) "p" .null =
      some (.ok ([("p", "Must be an object")], [])) ∧
    validateValueF (fun _ => true) 1 (.num 3) (.dunion {} "k" []) "p" (.obj []) =
      some (.ok ([("p", "Invalid discriminator \"undefined\"")], [])) := by
  refine ⟨?_, ?_, ?_, ?_⟩
  · exact (C2_stop_descent_amended (fun _ => true) 0 .undefined "p" .null).1 _ rfl rfl
  · exact (C2_stop_descent_amended (fun _ => true) 0 (.str "x") "p" .null).2.1
      {} {} (.boolean {}) rfl rfl rfl (fun xs h => Value.noConfusion h)
  · exact (C2_stop_descent_amended (fun _ => true) 0 (.num 3) "p" .null).2.2.1
      {} [] rfl rfl rfl (fun fs h => Value.noConfusion h)
  · exact (C2_stop_descent_amended (fun _ => true) 0 (.num 3) "p" (.obj [])).2.2.2
      {} "k" [] rfl rfl rfl rfl

/-- C4 counterexample: `validateForm` CAN reject.  An `asyncValidator`
node's `validate` is invoked by `validateAsync` with no surrounding
try/catch, so a validator that throws makes the whole call reject instead
of being converted into an error.  This refutes the claim that
`validateForm` never throws or rejects on any node variant. -/
theorem C4_no_throw_counterexample :
    validateForm (fun _ => true) (.obj [("f", .num 1)])
        [("f", .asyncV { validate := some (fun _ _ => .exn (some "boom")) } "dep")] =
      .error (some "boom") := rfl

/-- C4 (amended): a custom validator that throws is caught and converted
into an error at the node's path carrying the failure's message (or the
generic fallback) whenever it is invoked through the generic
custom-validator step at the end of `validateValue` — the walk continues
and the result is still returned.  But on an `asyncValidator` node the
same function is first invoked inside `validateAsync`, which has no
try/catch, so there a throwing validator escapes and `validateForm`
rejects. -/
theorem C4_no_throw_amended (dp : String → Bool) (fuel : Nat) (v : Value)
    (path : String) (av : Value) :
    (∀ (sch : Schema) f em p,
      (sch.common.required && v.isAbsent) = false →
      (v.isUndefined && !sch.common.required) = false →
      sch.common.validate = some f → f v av = .exn em →
      dispatchG dp (validateValueF dp fuel) v sch path av = some (.ok p) →
      validateValueF dp (fuel + 1) v sch path av =
        some (.ok (p.1 ++ [(path, exnMessage em)], p.2))) ∧
    (∀ c dep f em,
      (c.required && v.isAbsent) = false → (v.isUndefined && !c.required) = false →
      c.validate = some f → f v av = .exn em →
      validateValueF dp (fuel + 1) v (.asyncV c dep) path av =
        some (.error em)) := by
  constructor
  · intro sch f em p hg1 hg2 hval hf hdisp
    simp [validateValueF, hg1, hg2, hdisp, applyCustom, hval, hf]
  · intro c dep f em hg1 hg2 hval hf
    simp [validateValueF, Schema.common, hg1, hg2, dispatchG, validateAsyncG, hval, hf]

/-- Claim C4 (amended), witnessed at concrete inputs: a throwing custom
validator on a string node is converted to an appended error (the
non-`Error` throw producing the generic fallback message), while the same
validator on an `asyncValidator` node escapes. -/
theorem C4_no_throw_amended_witness :
    validateValueF (fun _ => true) 1 (.num 1)
        (.str { validate := some (fun _ _ => .exn none) } {}) "p" .null =
      some (.ok ([("p", "Must be a string"), ("p", "Validation error")], [])) ∧
    validateValueF (fun _ => true) 1 (.num 1)
        (.asyncV { validate := some (fun _ _ => .exn none) } "dep") "p" .null =
      some (.error none) := by
  exact ⟨(C4_no_throw_amended (fun _ => true) 0 (.num 1) "p" .null).1
           (.str { validate := some (fun _ _ => .exn none) } {})
           (fun _ _ => .exn none) none ([("p", "Must be a string")], [])
           rfl rfl rfl rfl rfl,
         (C4_no_throw_amended (fun _ => true) 0 (.num 1) "p" .null).2
           { validate := some (fun _ _ => .exn none) } "dep"
           (fun _ _ => .exn none) none rfl rfl rfl rfl⟩

/-- C5 counterexample: an `asyncValidator` node whose validator yields
the message "dup" ends up with that message recorded BOTH in the async
error sequence (via `validateAsync`) and in the synchronous error
sequence (via the generic custom-validator step, which invokes the same
function a second time).  This refutes the claim that the message is
recorded in `asyncErrors` only and accounted for exactly once per
visit. -/
theorem C5_async_isolation_counterexample :
    validateForm (fun _ => true) (.obj [("f", .num 1)])
        [("f", .asyncV { validate := some (fun _ _ => .ok (some "dup")) } "dep")] =
      .ok { valid := false, errors := [("f", "dup")],
            asyncErrors := some [("f", "dup")] } := rfl

/-- C5 (amended): for an `asyncValidator` node whose validator yields a
nonempty message, the message is recorded in the async sequence by
`validateAsync` AND the validator is invoked a second time by the generic
custom-validator step, which records the same message again in the
synchronous sequence — twice per visit, once in each sequence. -/
theorem C5_async_isolation_amended (dp : String → Bool) (fuel : Nat) (v : Value)
    (c : Common) (dep : String) (path : String) (av : Value)
    (f : Value → Value → VOutcome) (m : String)
    (hg1 : (c.required && v.isAbsent) = false)
    (hg2 : (v.isUndefined && !c.required) = false)
    (hval : c.validate = some f) (hf : f v av = .ok (some m)) (hm : m ≠ "") :
    validateValueF dp (fuel + 1) v (.asyncV c dep) path av =
      some (.ok ([(path, m)], [(path, m)])) := by
  simp [validateValueF, Schema.common, hg1, hg2, dispatchG, validateAsyncG, hval, hf,
    truthy, hm, applyCustom]

/-- Claim C5 (amended), witnessed at a concrete input. -/
theorem C5_async_isolation_amended_witness :
    validateValueF (fun _ => true) 1 (.num 1)
        (.asyncV { validate := some (fun _ _ => .ok (some "dup")) } "dep") "p" .null =
      some (.ok ([("p", "dup")], [("p", "dup")])) := by
  exact C5_async_isolation_amended (fun _ => true) 0 (.num 1)
    { validate := some (fun _ _ => .ok (some "dup")) } "dep" "p" .null
    (fun _ _ => .ok (some "dup")) "dup" rfl rfl rfl rfl (by decide)

/-- Membership in a conditional single-error chunk. -/
theorem mem_check_iff (e : String × String) (b : Bool) (path m : String) :
    e ∈ check b path m ↔ b = true ∧ e = (path, m) := by
  unfold check
  split <;> simp_all

/-- C6 counterexample: a function-form `errorMessage` on a string node
overrides the built-in message with the function's source text (its JS
`toString`), not with the default.  With `minLength := 2` violated, the
recorded message is the function source, and the claimed default message
"Min length 2" is not recorded. -/
theorem C6_fn_errormessage_counterexample :
    validateString (fun _ => true) (.str "a")
        { errorMessage := some (.fn "(v) => v.length") } { minLength := some 2 } "p" =
      [("p", "(v) => v.length")] ∧
    "(v) => v.length" ≠ "Min length 2" := by
  exact ⟨rfl, by decide⟩

/-- C6 (amended): when a string node's `errorMessage` is function-form,
every built-in string-check violation is reported with the function's
string conversion — its (nonempty) source text — instead of the default
message; the defaults apply only when `errorMessage` is absent or
stringifies to the empty string.  In particular a fired `minLength` check
records `(path, src)`. -/
theorem C6_fn_errormessage_amended (dp : String → Bool) (c : Common) (r : StringRules)
    (path src s : String) (hem : c.errorMessage = some (.fn src)) (hsrc : src ≠ "") :
    (∀ e ∈ validateString dp (.str s) c r path, e = (path, src)) ∧
    (∀ n, r.minLength = some n → s.length < n →
      (path, src) ∈ validateString dp (.str s) c r path) := by
  have hmsg : ∀ dft, msgOr c.errorMessage dft = src := by
    intro dft
    simp [msgOr, hem, errMsgToString, hsrc]
  constructor
  · intro e he
    rcases r with ⟨minL, maxL, pat, eml, urlb, cont, sw, ew, fmt⟩
    simp only [validateString] at he
    cases minL <;> cases maxL <;> cases pat <;> cases cont <;> cases sw <;> cases ew <;>
      (simp only [hmsg, List.mem_append, mem_check_iff, List.not_mem_nil, or_false,
        false_or] at he; tauto)
  · intro n hn hlt
    have hd : decide (s.length < n) = true := decide_eq_true hlt
    have hin : (path, src) ∈ check (decide (s.length < n)) path
        (msgOr c.errorMessage ("Min length " ++ toString n)) := by
      simp [check, hd, hmsg]
    simp only [validateString, hn]
    exact List.mem_append_left _ (List.mem_append_left _ (List.mem_append_left _
      (List.mem_append_left _ (List.mem_append_left _ (List.mem_append_left _
      (List.mem_append_left _ (List.mem_append_left _ hin)))))))

/-- Claim C6 (amended), witnessed at a concrete input: the fired
`minLength` check on a node with a function-form `errorMessage` records
the function's source text. -/
theorem C6_fn_errormessage_amended_witness :
    ("p", "(v) => v") ∈ validateString (fun _ => true) (.str "a")
      { errorMessage := some (.fn "(v) => v") } { minLength := some 2 } "p" := by
  exact (C6_fn_errormessage_amended (fun _ => true)
    { errorMessage := some (.fn "(v) => v") } { minLength := some 2 } "p" "(v) => v" "a"
    rfl (by decide)).2 2 rfl (by decide)

/-- Reading an index beyond a left prefix: positions shifted by the
prefix length read the middle list. -/
theorem getD_shift (l cs r : List Char) (i : Nat) (hi : i < cs.length) :
    (l ++ (cs ++ r)).getD (l.length + i) ' ' = cs.getD i ' ' := by
  rw [List.getD_append_right l (cs ++ r) ' ' (l.length + i) (Nat.le_add_right _ _)]
  rw [Nat.add_sub_cancel_left]
  exact List.getD_append cs r ' ' i hi

/-- Propositional characterization of `emailMatchAt`. -/
theorem emailMatchAt_iff (cs : List Char) (j k : Nat) :
    emailMatchAt cs j k = true ↔
      1 ≤ j ∧ j + 2 ≤ k ∧ k + 2 ≤ cs.length ∧
      emailCharOk (cs.getD (j - 1) ' ') = true ∧ cs.getD j ' ' = '@' ∧
      cs.getD k ' ' = '.' ∧ emailCharOk (cs.getD (k + 1) ' ') = true ∧
      ∀ i ∈ List.range' (j + 1) (k - (j + 1)), emailCharOk (cs.getD i ' ') = true := by
  simp [emailMatchAt, and_assoc]

/-- A match of the email regex survives arbitrary wrapping: its indices
shift by the length of the left wrapper. -/
theorem emailMatchAt_shift (l cs r : List Char) (j k : Nat)
    (h : emailMatchAt cs j k = true) :
    emailMatchAt (l ++ (cs ++ r)) (l.length + j) (l.length + k) = true := by
  rw [emailMatchAt_iff] at h ⊢
  obtain ⟨h1, h2, h3, h4, h5, h6, h7, h8⟩ := h
  refine ⟨by omega, by omega, ?_, ?_, ?_, ?_, ?_, ?_⟩
  · simp only [List.length_append]
    omega
  · have e1 : l.length + j - 1 = l.length + (j - 1) := by omega
    rw [e1, getD_shift l cs r (j - 1) (by omega)]
    exact h4
  · rw [getD_shift l cs r j (by omega)]
    exact h5
  · rw [getD_shift l cs r k (by omega)]
    exact h6
  · have e3 : l.length + k + 1 = l.length + (k + 1) := by omega
    rw [e3, getD_shift l cs r (k + 1) (by omega)]
    exact h7
  · intro i hi
    rw [List.mem_range'_1] at hi
    have e2 : i = l.length + (i - l.length) := by omega
    rw [e2, getD_shift l cs r (i - l.length) (by omega)]
    exact h8 (i - l.length) (by rw [List.mem_range'_1]; omega)

/-- The unanchored email test is closed under wrapping the character list
on both sides. -/
theorem emailTestList_append (l cs r : List Char) (h : emailTestList cs = true) :
    emailTestList (l ++ (cs ++ r)) = true := by
  unfold emailTestList at h ⊢
  simp only [List.any_eq_true, List.mem_range] at h ⊢
  obtain ⟨j, hj, k, hk, hm⟩ := h
  refine ⟨l.length + j, by simp only [List.length_append]; omega,
          l.length + k, by simp only [List.length_append]; omega, ?_⟩
  exact emailMatchAt_shift l cs r j k hm

/-- The source's email test is closed under wrapping the string on both
sides (the regex is unanchored). -/
theorem jsEmailTest_append (w1 s w2 : String) (h : jsEmailTest s = true) :
    jsEmailTest (w1 ++ s ++ w2) = true := by
  unfold jsEmailTest at h ⊢
  have hd : (w1 ++ s ++ w2).data = w1.data ++ (s.data ++ w2.data) := by
    rw [String.data_append, String.data_append, List.append_assoc]
  rw [hd]
  exact emailTestList_append w1.data s.data w2.data h

/-- C7 counterexample: the email check ACCEPTS an otherwise-accepted
address wrapped in leading and trailing whitespace (the regex is
unanchored, so the inner match suffices), recording no email-format
error.  This refutes the claim that such strings are rejected by the
email check. -/
theorem C7_email_whitespace_counterexample :
    jsEmailTest "a@b.c" = true ∧ jsEmailTest " a@b.c " = true ∧
    validateString (fun _ => true) (.str " a@b.c ") {} { email := true } "p" = [] := by
  refine ⟨by decide, by decide, rfl⟩

/-- C7 (amended): the email regex is unanchored, so any string containing
an accepted address as a substring — in particular an accepted address
wrapped in arbitrary leading and trailing text such as whitespace — also
passes the test, and the email check of `validateString` records NO error
for it at the node's path. -/
theorem C7_email_unanchored_amended (s w1 w2 : String) (h : jsEmailTest s = true) :
    jsEmailTest (w1 ++ s ++ w2) = true ∧
    ∀ (dp : String → Bool) (c : Common) (path : String),
      validateString dp (.str (w1 ++ s ++ w2)) c { email := true } path = [] := by
  have hw := jsEmailTest_append w1 s w2 h
  refine ⟨hw, ?_⟩
  intro dp c path
  simp [validateString, hw, check]

/-- Claim C7 (amended), witnessed at a concrete input: the
whitespace-wrapped address of the claim's family. -/
theorem C7_email_unanchored_amended_witness :
    jsEmailTest (" " ++ "a@b.c" ++ " ") = true ∧
    validateString (fun _ => true) (.str (" " ++ "a@b.c" ++ " ")) {} { email := true }
      "p" = [] := by
  exact ⟨(C7_email_unanchored_amended "a@b.c" " " " " (by decide)).1,
         (C7_email_unanchored_amended "a@b.c" " " " " (by decide)).2
           (fun _ => true) {} "p"⟩

/-- C8 counterexample: two deep-equal objects (equal by structural value
regardless of key insertion order) whose keys were inserted in different
orders serialize to different `JSON.stringify` strings, so the
`uniqueItems` check does NOT record "Items must be unique" for an array
containing both — the run yields no error at all.  This refutes the claim
that deep-equal elements are always flagged as duplicates. -/
theorem C8_unique_items_counterexample :
    specDeepEqual (.obj [("a", .num 1), ("b", .num 2)])
        (.obj [("b", .num 2), ("a", .num 1)]) = true ∧
    validateValueF (fun _ => true) 2
        (.arr [.obj [("a", .num 1), ("b", .num 2)],
               .obj [("b", .num 2), ("a", .num 1)]])
        (.arr {} { uniqueItems := true } (.obj {} [])) "p" .null =
      some (.ok ([], [])) := by
  exact ⟨rfl, rfl⟩

/-- C8 (amended): the `uniqueItems` check compares the `JSON.stringify`
serializations of the elements, which are key-order-sensitive.  Whenever
two elements have EQUAL serializations (for example structurally equal
values with identical key order), the check records
"Items must be unique" at the array's path. -/
theorem C8_unique_items_amended (recv : RecFn) (r : ArrayRules) (items : Schema)
    (path : String) (av : Value) (elems : List Value) (es as : Errs)
    (hu : r.uniqueItems = true) (hdup : ¬ (elems.map jstr).Nodup)
    (hok : validateArrayG recv (.arr elems) r items path av = some (.ok (es, as))) :
    (path, "Items must be unique") ∈ es := by
  have hne : ((elems.map jstr).dedup.length == elems.length) = false := by
    have hsub := List.dedup_sublist (elems.map jstr)
    have hlen : (elems.map jstr).dedup.length ≠ (elems.map jstr).length := by
      intro heq
      exact hdup (by
        rw [← List.Sublist.eq_of_length hsub heq]
        exact List.nodup_dedup _)
    rw [List.length_map] at hlen
    simpa using hlen
  have hmem : (path, "Items must be unique") ∈ arrayPreErrs r elems path := by
    refine List.mem_append_right _ ?_
    simp [check, hu, hne]
  cases hitems : validateItemsG recv items path av elems 0 with
  | none => simp [validateArrayG, hitems] at hok
  | some q =>
    cases q with
    | error e => simp [validateArrayG, hitems] at hok
    | ok p =>
      simp only [validateArrayG, hitems] at hok
      obtain ⟨h1, h2⟩ := by simpa using hok
      rw [← h1]
      exact List.mem_append_left _ hmem

/-- Claim C8 (amended), witnessed at a concrete input: two identical
elements share a serialization, and the run records the duplicate
error. -/
theorem C8_unique_items_amended_witness :
    ("p", "Items must be unique") ∈ ([("p", "Items must be unique")] : Errs) := by
  exact C8_unique_items_amended (fun _ _ _ _ => some (.ok ([], []))) { uniqueItems := true }
    (.boolean {}) "p" .null [.num 1, .num 1] [("p", "Items must be unique")] []
    rfl (by decide) rfl

/-- The nesting depth of a member of a schema map is bounded by the
map's depth. -/
theorem heightList_le (props : List (String × Schema)) (ks : String × Schema)
    (h : ks ∈ props) : schemaHeight ks.2 ≤ schemaHeightList props := by
  induction props with
  | nil => simp at h
  | cons p rest ih =>
    obtain ⟨a, sc⟩ := p
    rcases List.mem_cons.mp h with h | h
    · subst h
      simp only [schemaHeightList]
      exact Nat.le_max_left _ _
    · refine le_trans (ih h) ?_
      simp only [schemaHeightList]
      exact Nat.le_max_right _ _

/-- The nesting depth of a branch found in a schema map is bounded by the
map's depth. -/
theorem assocS_height (l : List (String × Schema)) (key : String) (sub : Schema)
    (h : assocS l key = some sub) : schemaHeight sub ≤ schemaHeightList l := by
  induction l with
  | nil => simp [assocS] at h
  | cons p rest ih =>
    obtain ⟨a, sc⟩ := p
    by_cases hk : a = key
    · simp [assocS, hk] at h
      subst h
      simp only [schemaHeightList]
      exact Nat.le_max_left _ _
    · simp [assocS, hk] at h
      refine le_trans (ih h) ?_
      simp only [schemaHeightList]
      exact Nat.le_max_right _ _

/-- The element loop returns a result whenever the walker does on every
element. -/
theorem validateItemsG_isSome (recv : RecFn) (items : Schema) (path : String)
    (av : Value) (hrec : ∀ x p, (recv x items p av).isSome) (vs : List Value) :
    ∀ i, (validateItemsG recv items path av vs i).isSome := by
  induction vs with
  | nil => intro i; simp [validateItemsG]
  | cons x rest ih =>
    intro i
    obtain ⟨w, hw⟩ := Option.isSome_iff_exists.mp (hrec x (itemPath path i))
    obtain ⟨u, hu⟩ := Option.isSome_iff_exists.mp (ih (i + 1))
    cases w with
    | error e => simp [validateItemsG, hw]
    | ok p =>
      cases u with
      | error e => simp [validateItemsG, hw, hu]
      | ok q => simp [validateItemsG, hw, hu]

/-- The property loop returns a result whenever the walker does on every
declared property. -/
theorem validatePropsG_isSome (recv : RecFn) (fields : List (String × Value))
    (path : String) (av : Value) (props : List (String × Schema))
    (hrec : ∀ ks ∈ props, ∀ x p, (recv x ks.2 p av).isSome) :
    (validatePropsG recv fields path av props).isSome := by
  induction props with
  | nil => simp [validatePropsG]
  | cons p rest ih =>
    obtain ⟨key, sc⟩ := p
    obtain ⟨w, hw⟩ := Option.isSome_iff_exists.mp
      (hrec (key, sc) (List.mem_cons_self _ _) ((assocV fields key).getD .undefined)
        (joinPath path key))
    obtain ⟨u, hu⟩ := Option.isSome_iff_exists.mp
      (ih (fun ks hk x pp => hrec ks (List.mem_cons_of_mem _ hk) x pp))
    cases w with
    | error e => simp [validatePropsG, hw]
    | ok p2 =>
      cases u with
      | error e => simp [validatePropsG, hw, hu]
      | ok q => simp [validatePropsG, hw, hu]

/-- `validateArray` returns a result whenever the walker does on every
element against the `items` node. -/
theorem validateArrayG_isSome (recv : RecFn) (v : Value) (r : ArrayRules)
    (items : Schema) (path : String) (av : Value)
    (hrec : ∀ x p, (recv x items p av).isSome) :
    (validateArrayG recv v r items path av).isSome := by
  cases v with
  | arr elems =>
    obtain ⟨w, hw⟩ := Option.isSome_iff_exists.mp
      (validateItemsG_isSome recv items path av hrec elems 0)
    cases w with
    | error e => simp [validateArrayG, hw]
    | ok p => simp [validateArrayG, hw]
  | undefined => simp [validateArrayG]
  | null => simp [validateArrayG]
  | bool b => simp [validateArrayG]
  | num n => simp [validateArrayG]
  | str s2 => simp [validateArrayG]
  | obj fs => simp [validateArrayG]

/-- `validateObject` returns a result whenever the walker does on every
declared property. -/
theorem validateObjectG_isSome (recv : RecFn) (v : Value)
    (props : List (String × Schema)) (path : String) (av : Value)
    (hrec : ∀ ks ∈ props, ∀ x p, (recv x ks.2 p av).isSome) :
    (validateObjectG recv v props path av).isSome := by
  cases v with
  | obj fields =>
    simp only [validateObjectG]
    exact validatePropsG_isSome recv fields path av props hrec
  | undefined => simp [validateObjectG]
  | null => simp [validateObjectG]
  | bool b => simp [validateObjectG]
  | num n => simp [validateObjectG]
  | str s2 => simp [validateObjectG]
  | arr xs => simp [validateObjectG]

/-- `validateDiscriminatedUnion` returns a result whenever the walker
does on the matched branch (when any matches). -/
theorem validateDUG_isSome (recv : RecFn) (v : Value) (disc : String)
    (schemas : List (String × Schema)) (path : String) (av : Value)
    (hrec : ∀ sub,
      assocS schemas (jsToString (resolveDots av (jsSplitDots disc))) = some sub →
      (recv v sub path av).isSome) :
    (validateDUG recv v disc schemas path av).isSome := by
  simp only [validateDUG]
  cases hl : assocS schemas (jsToString (resolveDots av (jsSplitDots disc))) with
  | none => simp
  | some sub => exact hrec sub hl

/-- Fuel sufficiency: any fuel exceeding the schema's nesting depth makes
the walker return a result, for EVERY input value, of any nesting depth —
the recursion is bounded by the schema, not the input, because input keys
not named in the schema are never visited. -/
theorem validateValueF_total (dp : String → Bool) (fuel : Nat) :
    ∀ (sch : Schema) (v : Value) (path : String) (av : Value),
      schemaHeight sch < fuel → (validateValueF dp fuel v sch path av).isSome := by
  induction fuel with
  | zero => intro sch v path av h; exact absurd h (Nat.not_lt_zero _)
  | succ fuel ih =>
    intro sch v path av h
    simp only [validateValueF]
    split
    · simp
    split
    · simp
    have hd : (dispatchG dp (validateValueF dp fuel) v sch path av).isSome := by
      cases sch with
      | str c r => simp [dispatchG]
      | num c r => simp [dispatchG]
      | boolean c => simp [dispatchG]
      | asyncV c dep => simp [dispatchG]
      | arr c r items =>
        simp only [dispatchG]
        refine validateArrayG_isSome _ v r items path av ?_
        intro x p
        refine ih items x p av ?_
        simp only [schemaHeight] at h
        omega
      | obj c props =>
        simp only [dispatchG]
        refine validateObjectG_isSome _ v props path av ?_
        intro ks hk x p
        refine ih ks.2 x p av ?_
        have := heightList_le props ks hk
        simp only [schemaHeight] at h
        omega
      | dunion c disc schemas =>
        simp only [dispatchG]
        refine validateDUG_isSome _ v disc schemas path av ?_
        intro sub hl
        refine ih sub v path av ?_
        have := assocS_height schemas _ sub hl
        simp only [schemaHeight] at h
        omega
    obtain ⟨w, hw⟩ := Option.isSome_iff_exists.mp hd
    rw [hw]
    cases w with
    | error e => simp
    | ok p => simp

/-- C9: the walk terminates with a result for every document, however
deeply nested, using the input-independent recursion-depth budget
`validateForm` grants — one more than the schema tree's nesting depth.
The recursion is therefore well-founded with depth bounded by the
schema's nesting depth rather than the input's. -/
theorem C9_termination_schema_depth (dp : String → Bool) (data : Value)
    (schema : List (String × Schema)) :
    (validateValueF dp (schemaHeight (rootSchema schema) + 1) data
      (rootSchema schema) "" data).isSome :=
  validateValueF_total dp _ (rootSchema schema) data "" data (Nat.lt_succ_self _)

end FormValidator
